import Mathlib

/-!
Verification of the scheduling / rate-limiting / retry logic of a Mastodon
bot (`src/mastodon_bot.py`) as a shallow embedding in Lean 4.

Conventions of the embedding:
* Python strings are `List Char` (Python indexes/slices by code point);
  `s[:n]` is `List.take n`, `s.strip()` is `pyStrip`.
* Wall-clock times and sleep durations are `ℚ` (seconds since the epoch).
* The external generative-service call is abstracted by a sequence
  `outcomes : ℕ → GenOutcome`: `outcomes i` is what the i-th call inside
  `generate_entertainment_response` would do (return text, or raise).
* `asyncio.sleep` is recorded symbolically: functions return the list of
  sleep durations they perform, in order.
-/

/-- Python `str.strip()` on a list of characters: drop whitespace from both
ends (the prompt-building part of the source does not matter for the
properties below; only the result post-processing does). -/
def pyStrip (s : List Char) : List Char :=
  ((s.dropWhile Char.isWhitespace).reverse.dropWhile Char.isWhitespace).reverse

/-- Outcome of one call to `self.model.generate_content` (text-only or
multimodal): either a response with the given `.text`, or an exception. -/
inductive GenOutcome where
  | ok (text : List Char)
  | err
deriving DecidableEq

/-- The fixed fallback reply returned by `generate_entertainment_response`
after exhausting all retries (line 188 of `mastodon_bot.py`). -/
def fallbackResponse : List Char :=
  "✨ Interesting perspective! Thanks for sharing! 🌟".data

/-- The attempt loop of `generate_entertainment_response`
(lines 153–188): for `attempt in range(maxRetries)`: sleep 5, call the
service; on success return `response.text[:240].strip()`; on exception,
if not the last attempt sleep `10 * (attempt + 1)` and continue, else
return the fallback string.  Returns `(result, sleeps)` where `result` is
`none` exactly when the `for` body never ran (Python falls off the end and
returns `None`) and `sleeps` lists every `asyncio.sleep` duration in order. -/
def genGo (outcomes : ℕ → GenOutcome) (maxRetries : ℕ) :
    ℕ → ℕ → Option (List Char) × List ℚ
  | 0, _ => (none, [])
  | remaining + 1, attempt =>
    match outcomes attempt with
    | GenOutcome.ok t => (some (pyStrip (t.take 240)), [5])
    | GenOutcome.err =>
        if attempt < maxRetries - 1 then
          let rest := genGo outcomes maxRetries remaining (attempt + 1)
          (rest.1, 5 :: ((10 * (attempt + 1) : ℚ)) :: rest.2)
        else
          (some fallbackResponse, [5])

/-- The `for attempt in range(max_retries)` loop entered at iteration
`attempt`, expressed via the number `maxRetries - attempt` of remaining
iterations (structural recursion; `genGo` is the loop body). -/
def genFrom (outcomes : ℕ → GenOutcome) (maxRetries attempt : ℕ) :
    Option (List Char) × List ℚ :=
  genGo outcomes maxRetries (maxRetries - attempt) attempt

/-- `generate_entertainment_response(post_text, status, max_retries)`,
with the service calls abstracted by `outcomes`.  `max_retries` is a
Python `int`, hence `ℤ`; `range(n)` is empty for `n ≤ 0`. -/
def generate_entertainment_response (outcomes : ℕ → GenOutcome)
    (maxRetries : ℤ) : Option (List Char) × List ℚ :=
  genFrom outcomes maxRetries.toNat 0

/-!
## Rate limiter (`_handle_rate_limit`, lines 97–118)

State: `last_request_time` and `request_count`.  A call reads the clock
once (`current_time`), resets the window if ≥ 60 s have elapsed, sleeps
`60 − time_diff` when the counter is at the ceiling (re-reading the clock
afterwards), then always sleeps 2 s and increments the counter.  Sleeps are
modelled as exact; a caller that is delayed further is modelled by the
nonnegative gap before its next call.  The request "proceeds" when the
call returns.
-/

structure RLState where
  last_request_time : ℚ
  request_count : ℕ
deriving DecidableEq

def max_requests_per_minute : ℕ := 30

/-- One call to `_handle_rate_limit` entered at clock time `t`: returns the
new state and the time at which the call returns (= the time at which the
guarded request proceeds). -/
def handle_rate_limit (s : RLState) (t : ℚ) : RLState × ℚ :=
  let time_diff := t - s.last_request_time
  let s1 := if time_diff ≥ 60 then RLState.mk t 0 else s
  let step2 : RLState × ℚ :=
    if s1.request_count ≥ max_requests_per_minute then
      let wait_time := 60 - time_diff
      if wait_time > 0 then (RLState.mk (t + wait_time) 0, t + wait_time)
      else (s1, t)
    else (s1, t)
  (RLState.mk step2.1.last_request_time (step2.1.request_count + 1), step2.2 + 2)

/-- A serial sequence of calls to `_handle_rate_limit`: the first call is
entered at time `t0`; after each call returns, the caller does its work for
`g ≥ 0` seconds (`g` drawn from `gaps`) and then the next call is entered.
Returns the final state and the list of proceed times. -/
def rl_run (s : RLState) (t0 : ℚ) : List ℚ → RLState × List ℚ
  | [] => (s, [])
  | g :: gaps =>
      let c := handle_rate_limit s t0
      let rest := rl_run c.1 (c.2 + g) gaps
      (rest.1, c.2 :: rest.2)



/-!
## Scheduler loop (`run_forever`, lines 220–252)

One iteration of the `while self.is_running` body: read the clock
(`tStart`, line 227); auto-post when the interval elapsed and the daily cap
is not reached (lines 230–235); monitor the three hashtags (lines 238–239);
handle direct messages (line 242); reset `post_count` when the wall clock
(`tMid`, line 245) is at hour 0 minute 0; sleep 60 s — or, when any step
raises, catch the exception at the loop level and sleep 300 s
(lines 250–252).  The bodies of `create_scheduled_post` and
`handle_direct_messages` are not in `src/`; they are abstracted as actions
that either complete or raise (`failAt`).  `monitor_hashtag`
(lines 254–268) catches all its own exceptions and never raises into the
loop.  Each iteration records, in order, the actions it starts.
-/

structure BotState where
  last_post_time : ℚ
  post_count : ℕ
  max_daily_posts : ℕ
  auto_post_interval : ℚ
deriving DecidableEq

/-- The steps a scheduler iteration can start, in source order.
`autoLike` occurs only in the dead `schedule_auto_posts` loop
(lines 189–219), never in `run_forever`; it is included so that its
absence from `run_forever` iterations can be stated. -/
inductive BotAction where
  | post
  | hashtag (tag : String)
  | dms
  | reset
  | autoLike
deriving DecidableEq

/-- The two places a `run_forever` iteration can raise:
`create_scheduled_post` (line 232) and `handle_direct_messages`
(line 242). -/
inductive FailPoint where
  | atPost
  | atDM
deriving DecidableEq

/-- The per-iteration environment: the two clock readings and whether (and
where) an exception is raised. `failAt = some p` means: if step `p` runs in
this iteration, it raises. -/
structure IterInput where
  tStart : ℚ
  tMid : ℚ
  failAt : Option FailPoint
deriving DecidableEq

def hashtags_to_monitor : List String := ["tech", "AI", "programming"]

/-- Seconds since local midnight of the epoch-seconds clock value `t`. -/
def seconds_of_day (t : ℚ) : ℚ := t - 86400 * (Int.floor (t / 86400) : ℚ)

/-- `datetime.now().hour` for clock value `t`. -/
def hour_of (t : ℚ) : ℤ := Int.floor (seconds_of_day t / 3600)

/-- `datetime.now().minute` for clock value `t`. -/
def minute_of (t : ℚ) : ℤ :=
  Int.floor ((seconds_of_day t - 3600 * (hour_of t : ℚ)) / 60)

/-- Local calendar day index of clock value `t`. -/
def day_of (t : ℚ) : ℤ := Int.floor (t / 86400)

/-- The guard of line 245: `datetime.now().hour == 0 and
datetime.now().minute == 0`. -/
def is_midnight_minute (t : ℚ) : Bool :=
  decide (hour_of t = 0 ∧ minute_of t = 0)

/-- Result of one iteration: its input, the state after it, the actions it
started in order, and the duration of the final sleep (60 s normally,
300 s in the exception handler). -/
structure IterResult where
  input : IterInput
  state : BotState
  actions : List BotAction
  sleep : ℚ
deriving DecidableEq

/-- The part of an iteration after the auto-post step: hashtag monitoring,
DM handling (which may raise), the midnight reset, and the final sleep. -/
def iteration_rest (inp : IterInput) (s : BotState) (acts : List BotAction) :
    IterResult :=
  let acts2 := acts ++ hashtags_to_monitor.map BotAction.hashtag
  if inp.failAt = some FailPoint.atDM then
    IterResult.mk inp s (acts2 ++ [BotAction.dms]) 300
  else if is_midnight_minute inp.tMid then
    IterResult.mk inp
      (BotState.mk s.last_post_time 0 s.max_daily_posts s.auto_post_interval)
      (acts2 ++ [BotAction.dms, BotAction.reset]) 60
  else
    IterResult.mk inp s (acts2 ++ [BotAction.dms]) 60

/-- One iteration of the `run_forever` body (lines 226–252). -/
def run_iteration (s : BotState) (inp : IterInput) : IterResult :=
  if inp.tStart - s.last_post_time ≥ s.auto_post_interval ∧
      s.post_count < s.max_daily_posts then
    if inp.failAt = some FailPoint.atPost then
      IterResult.mk inp s [BotAction.post] 300
    else
      iteration_rest inp
        (BotState.mk inp.tStart (s.post_count + 1) s.max_daily_posts
          s.auto_post_interval)
        [BotAction.post]
  else
    iteration_rest inp s []

/-- A finite prefix of the `run_forever` loop: the final state and the
per-iteration results, in order.  The loop body is wrapped in
`try/except Exception`, so every iteration completes and the next one
always runs. -/
def run_forever_loop (s : BotState) : List IterInput → BotState × List IterResult
  | [] => (s, [])
  | inp :: rest =>
      let r := run_iteration s inp
      let rr := run_forever_loop r.state rest
      (rr.1, r :: rr.2)

/-- The source order of the steps of one `run_forever` iteration. -/
def iteration_order : List BotAction :=
  BotAction.post :: (hashtags_to_monitor.map BotAction.hashtag ++ [BotAction.dms, BotAction.reset])

/-!
## DM context store

`self._load_dm_context()` is called at line 84 and the store file is
`dm_context.json` (line 83), but the bodies of `_load_dm_context`, of the
store update, and of `handle_direct_messages` are not in `src/`; they are
modelled from the spec (§4.4 and §2).
-/

/-- Modelled from the spec: `_load_dm_context` — "load() → set of ids at
startup (missing file ⇒ empty set, not an error)".  The file content is
`none` when `dm_context.json` is missing, `some ids` otherwise. -/
def load_dm_context : Option (List ℕ) → List ℕ
  | none => []
  | some ids => ids

/-- Modelled from the spec: `record(id)` of the DM context store —
"idempotently adds and persists". -/
def record_dm (store : List ℕ) (msgId : ℕ) : List ℕ :=
  if msgId ∈ store then store else store ++ [msgId]

/-- Modelled from the spec: the selection step of `handle_direct_messages`
— "for each not present in RepliedMessageSet, generate and send a reply";
only ids not in the replied store are replied to. -/
def dms_to_reply (replied : List ℕ) (incoming : List ℕ) : List ℕ :=
  incoming.filter (fun msgId => decide (msgId ∉ replied))


-- Basic facts about the attempt loop, shared by several claims.

theorem pyStrip_length_le (s : List Char) : (pyStrip s).length ≤ s.length := by
  unfold pyStrip
  calc ((s.dropWhile Char.isWhitespace).reverse.dropWhile Char.isWhitespace).reverse.length
      = ((s.dropWhile Char.isWhitespace).reverse.dropWhile Char.isWhitespace).length := by
        simp
    _ ≤ (s.dropWhile Char.isWhitespace).reverse.length :=
        (List.dropWhile_sublist _).length_le
    _ = (s.dropWhile Char.isWhitespace).length := by simp
    _ ≤ s.length := (List.dropWhile_sublist _).length_le

theorem fallbackResponse_length : fallbackResponse.length = 48 := by decide

/-- Whenever the loop body runs at least once, the function returns `some`
string of length at most 240. -/
theorem genFrom_total (outcomes : ℕ → GenOutcome) :
    ∀ maxRetries attempt, attempt < maxRetries →
      ∃ s, (genFrom outcomes maxRetries attempt).1 = some s ∧ s.length ≤ 240 := by
  intro maxRetries
  suffices main : ∀ remaining attempt, remaining = maxRetries - attempt →
      attempt < maxRetries →
      ∃ s, (genGo outcomes maxRetries remaining attempt).1 = some s ∧
        s.length ≤ 240 by
    intro attempt hlt
    exact main (maxRetries - attempt) attempt rfl hlt
  intro remaining
  induction remaining with
  | zero => intro attempt hrem hlt; omega
  | succ n ih =>
      intro attempt hrem hlt
      simp only [genGo]
      cases hout : outcomes attempt with
      | ok t =>
          refine ⟨pyStrip (t.take 240), rfl, ?_⟩
          calc (pyStrip (t.take 240)).length ≤ (t.take 240).length :=
                pyStrip_length_le _
            _ ≤ 240 := by simp [List.length_take]
      | err =>
          by_cases hlast : attempt < maxRetries - 1
          · simp only [hlast, if_pos]
            exact ih (attempt + 1) (by omega) (by omega)
          · simp only [hlast, if_neg, not_false_iff]
            exact ⟨fallbackResponse, rfl, by rw [fallbackResponse_length]; omega⟩

/-- If every attempt fails, the result is the fixed fallback string. -/
theorem genFrom_all_fail (outcomes : ℕ → GenOutcome) :
    ∀ maxRetries attempt, attempt < maxRetries →
      (∀ i, i < maxRetries → outcomes i = GenOutcome.err) →
      (genFrom outcomes maxRetries attempt).1 = some fallbackResponse := by
  intro maxRetries
  suffices main : ∀ remaining attempt, remaining = maxRetries - attempt →
      attempt < maxRetries →
      (∀ i, i < maxRetries → outcomes i = GenOutcome.err) →
      (genGo outcomes maxRetries remaining attempt).1 = some fallbackResponse by
    intro attempt hlt hall
    exact main (maxRetries - attempt) attempt rfl hlt hall
  intro remaining
  induction remaining with
  | zero => intro attempt hrem hlt _; omega
  | succ n ih =>
      intro attempt hrem hlt hall
      simp only [genGo, hall attempt hlt]
      by_cases hlast : attempt < maxRetries - 1
      · simp only [hlast, if_pos]
        exact ih (attempt + 1) (by omega) (by omega) hall
      · simp [hlast]

/-- If the first failures are followed by a success, the result is the
successful response truncated to 240 characters and stripped. -/
theorem genFrom_success (outcomes : ℕ → GenOutcome) :
    ∀ maxRetries attempt i t, attempt ≤ i → i < maxRetries →
      (∀ j, attempt ≤ j → j < i → outcomes j = GenOutcome.err) →
      outcomes i = GenOutcome.ok t →
      (genFrom outcomes maxRetries attempt).1 = some (pyStrip (t.take 240)) := by
  intro maxRetries
  suffices main : ∀ remaining attempt i t, remaining = maxRetries - attempt →
      attempt ≤ i → i < maxRetries →
      (∀ j, attempt ≤ j → j < i → outcomes j = GenOutcome.err) →
      outcomes i = GenOutcome.ok t →
      (genGo outcomes maxRetries remaining attempt).1 =
        some (pyStrip (t.take 240)) by
    intro attempt i t hai hlt hfail hok
    exact main (maxRetries - attempt) attempt i t rfl hai hlt hfail hok
  intro remaining
  induction remaining with
  | zero => intro attempt i t hrem hai hlt _ _; omega
  | succ n ih =>
      intro attempt i t hrem hai hlt hfail hok
      simp only [genGo]
      rcases eq_or_lt_of_le hai with heq | hlt2
      · subst heq
        rw [hok]
      · have hfa : outcomes attempt = GenOutcome.err :=
          hfail attempt le_rfl hlt2
        rw [hfa]
        have hlast : attempt < maxRetries - 1 := by omega
        simp only [hlast, if_pos]
        rw [ih (attempt + 1) i t (by omega) (by omega) hlt
          (fun j hj1 hj2 => hfail j (by omega) hj2) hok]

theorem handle_rate_limit_return_ge (s : RLState) (t : ℚ) :
    t + 2 ≤ (handle_rate_limit s t).2 := by
  unfold handle_rate_limit max_requests_per_minute
  dsimp only
  split_ifs <;> dsimp only <;> linarith

/-- Elements after the head of a 2-spaced chain are at least 2 above it. -/
theorem spaced_head_le :
    ∀ (l : List ℚ) (a : ℚ), List.Chain' (fun x y : ℚ => x + 2 ≤ y) (a :: l) →
      ∀ x ∈ l, a + 2 ≤ x := by
  intro l
  induction l with
  | nil => intro a _ x hx; cases hx
  | cons b l ih =>
      intro a hchain x hx
      have h1 : a + 2 ≤ b := (List.chain'_cons.mp hchain).1
      have h2 : List.Chain' (fun x y : ℚ => x + 2 ≤ y) (b :: l) :=
        (List.chain'_cons.mp hchain).2
      rcases List.mem_cons.mp hx with rfl | hx
      · exact h1
      · have := ih b h2 x hx
        linarith

/-- A sublist of a 2-spaced chain is 2-spaced. -/
theorem spaced_sublist :
    ∀ {l₁ l₂ : List ℚ}, List.Sublist l₁ l₂ →
      List.Chain' (fun x y : ℚ => x + 2 ≤ y) l₂ →
      List.Chain' (fun x y : ℚ => x + 2 ≤ y) l₁ := by
  intro l₁ l₂ h
  induction h with
  | slnil => intro _; exact List.chain'_nil
  | cons a h ih =>
      intro hchain
      exact ih (List.Chain'.tail hchain)
  | cons₂ a h ih =>
      intro hchain
      refine List.chain'_cons'.mpr ⟨?_, ih (List.Chain'.tail hchain)⟩
      intro y hy
      exact spaced_head_le _ a hchain y (h.subset (List.mem_of_mem_head? hy))

/-- A 2-spaced chain whose elements all lie in a half-open window of length
`2 * n` has at most `n` elements. -/
theorem spaced_window_le :
    ∀ (n : ℕ) (l : List ℚ) (T : ℚ),
      List.Chain' (fun x y : ℚ => x + 2 ≤ y) l →
      (∀ x ∈ l, T ≤ x ∧ x < T + 2 * n) → l.length ≤ n := by
  intro n
  induction n with
  | zero =>
      intro l T _ hmem
      cases l with
      | nil => simp
      | cons a l =>
          have := hmem a (List.mem_cons_self a l)
          push_cast at this
          linarith [this.1, this.2]
  | succ n ih =>
      intro l T hchain hmem
      cases l with
      | nil => simp
      | cons a l =>
          have hmema := hmem a (List.mem_cons_self a l)
          have htail : List.Chain' (fun x y : ℚ => x + 2 ≤ y) l :=
            List.Chain'.tail hchain
          have hl : l.length ≤ n := by
            refine ih l (a + 2) htail ?_
            intro x hx
            refine ⟨spaced_head_le l a hchain x hx, ?_⟩
            have hx2 := (hmem x (List.mem_cons_of_mem a hx)).2
            have := hmema.1
            push_cast at hx2 ⊢
            linarith
          simpa using Nat.succ_le_succ hl

/-- The proceed times of a serial run are 2-spaced and bounded below. -/
theorem rl_run_spaced :
    ∀ (gaps : List ℚ) (s : RLState) (t0 : ℚ), (∀ g ∈ gaps, 0 ≤ g) →
      List.Chain' (fun x y : ℚ => x + 2 ≤ y) (rl_run s t0 gaps).2 ∧
      ∀ p ∈ (rl_run s t0 gaps).2, t0 + 2 ≤ p := by
  intro gaps
  induction gaps with
  | nil => intro s t0 _; exact ⟨List.chain'_nil, by intro p hp; cases hp⟩
  | cons g gaps ih =>
      intro s t0 hg
      have hg0 : 0 ≤ g := hg g (List.mem_cons_self g gaps)
      have hgrest : ∀ x ∈ gaps, 0 ≤ x :=
        fun x hx => hg x (List.mem_cons_of_mem g hx)
      have hret := handle_rate_limit_return_ge s t0
      have ihr := ih (handle_rate_limit s t0).1 ((handle_rate_limit s t0).2 + g) hgrest
      rw [rl_run]
      constructor
      · refine List.chain'_cons'.mpr ⟨?_, ihr.1⟩
        intro y hy
        have := ihr.2 y (List.mem_of_mem_head? hy)
        linarith
      · intro p hp
        rcases List.mem_cons.mp hp with rfl | hp
        · exact hret
        · have := ihr.2 p hp
          linarith

-- Per-iteration facts about `run_forever` and lifting over the loop.

theorem run_iteration_input (s : BotState) (inp : IterInput) :
    (run_iteration s inp).input = inp := by
  unfold run_iteration iteration_rest
  split_ifs <;> rfl

theorem run_iteration_sleep (s : BotState) (inp : IterInput) :
    ((run_iteration s inp).sleep = 300 ∨ (run_iteration s inp).sleep = 60) ∧
    (inp.failAt = none → (run_iteration s inp).sleep = 60) ∧
    (inp.failAt = some FailPoint.atDM → (run_iteration s inp).sleep = 300) := by
  unfold run_iteration iteration_rest
  split_ifs <;> simp_all

theorem run_iteration_preserves (s : BotState) (inp : IterInput) :
    (run_iteration s inp).state.max_daily_posts = s.max_daily_posts ∧
    (run_iteration s inp).state.auto_post_interval = s.auto_post_interval := by
  unfold run_iteration iteration_rest
  split_ifs <;> simp_all

theorem run_iteration_post_bound (s : BotState) (inp : IterInput)
    (h : s.post_count ≤ s.max_daily_posts) :
    (run_iteration s inp).state.post_count ≤
      (run_iteration s inp).state.max_daily_posts := by
  unfold run_iteration iteration_rest
  split_ifs with h1 h2 h3 h4 <;> simp_all <;> omega

theorem run_iteration_reset (s : BotState) (inp : IterInput) :
    (inp.failAt = none →
      (BotAction.reset ∈ (run_iteration s inp).actions ↔
        is_midnight_minute inp.tMid = true)) ∧
    (BotAction.reset ∈ (run_iteration s inp).actions →
      is_midnight_minute inp.tMid = true) ∧
    (BotAction.reset ∈ (run_iteration s inp).actions →
      (run_iteration s inp).state.post_count = 0) := by
  unfold run_iteration iteration_rest
  split_ifs <;> simp_all [hashtags_to_monitor]

theorem run_iteration_no_post (s : BotState) (inp : IterInput)
    (h : ¬ inp.tStart - s.last_post_time ≥ s.auto_post_interval) :
    BotAction.post ∉ (run_iteration s inp).actions ∧
    (run_iteration s inp).state.last_post_time = s.last_post_time := by
  unfold run_iteration iteration_rest
  have h2 : ¬ (inp.tStart - s.last_post_time ≥ s.auto_post_interval ∧
      s.post_count < s.max_daily_posts) := fun hc => h hc.1
  split_ifs <;> simp_all [hashtags_to_monitor]

theorem run_forever_loop_length (s : BotState) (inps : List IterInput) :
    (run_forever_loop s inps).2.length = inps.length := by
  induction inps generalizing s with
  | nil => rfl
  | cons inp rest ih => simp [run_forever_loop, ih]

theorem run_forever_loop_forall (P : IterResult → Prop)
    (hstep : ∀ s inp, P (run_iteration s inp)) :
    ∀ (inps : List IterInput) (s : BotState),
      ∀ r ∈ (run_forever_loop s inps).2, P r := by
  intro inps
  induction inps with
  | nil => intro s r hr; cases hr
  | cons inp rest ih =>
      intro s r hr
      rw [run_forever_loop] at hr
      rcases List.mem_cons.mp hr with rfl | hr
      · exact hstep s inp
      · exact ih _ r hr

theorem run_forever_loop_invariant (inv : BotState → Prop)
    (hstep : ∀ s inp, inv s → inv (run_iteration s inp).state) :
    ∀ (inps : List IterInput) (s : BotState), inv s →
      (∀ r ∈ (run_forever_loop s inps).2, inv r.state) ∧
      inv (run_forever_loop s inps).1 := by
  intro inps
  induction inps with
  | nil => intro s hs; exact ⟨fun r hr => absurd hr (List.not_mem_nil r), hs⟩
  | cons inp rest ih =>
      intro s hs
      have hnext := hstep s inp hs
      have hrest := ih (run_iteration s inp).state hnext
      constructor
      · intro r hr
        rw [run_forever_loop] at hr
        rcases List.mem_cons.mp hr with rfl | hr
        · exact hnext
        · exact hrest.1 r hr
      · exact hrest.2

-- Claim theorems.

/-- C1: for every input post text, every optional source post, and every
sequence of outcomes of the underlying generation calls,
`generate_entertainment_response` with its default `max_retries = 3`
returns a string of length at most 240; when all 3 attempts raise it
returns the fixed fallback string and no exception reaches the caller;
when an attempt succeeds (after the earlier ones raised) it returns the
service's response text truncated to 240 characters and trimmed of
surrounding whitespace. -/
theorem C1_generate_bounded_total (outcomes : ℕ → GenOutcome) :
    (∃ s, (generate_entertainment_response outcomes 3).1 = some s ∧
      s.length ≤ 240) ∧
    ((∀ i, i < 3 → outcomes i = GenOutcome.err) →
      (generate_entertainment_response outcomes 3).1 = some fallbackResponse) ∧
    (∀ i t, i < 3 → (∀ j, j < i → outcomes j = GenOutcome.err) →
      outcomes i = GenOutcome.ok t →
      (generate_entertainment_response outcomes 3).1 =
        some (pyStrip (t.take 240))) := by
  refine ⟨?_, ?_, ?_⟩
  · exact genFrom_total outcomes 3 0 (by omega)
  · intro hall
    exact genFrom_all_fail outcomes 3 0 (by omega) hall
  · intro i t hi hfail hok
    exact genFrom_success outcomes 3 0 i t (Nat.zero_le i) hi
      (fun j _ hj => hfail j hj) hok

/-- Witness for C1: with every call failing the result is the fallback
string; with a first-call success on `"  hi  "` the result is `"hi"`. -/
theorem C1_generate_bounded_total_witness :
    (generate_entertainment_response (fun _ => GenOutcome.err) 3).1 =
      some fallbackResponse ∧
    (generate_entertainment_response
        (fun _ => GenOutcome.ok "  hi  ".data) 3).1 = some "hi".data := by
  constructor
  · exact (C1_generate_bounded_total (fun _ => GenOutcome.err)).2.1
      (fun i _ => rfl)
  · have h := (C1_generate_bounded_total
        (fun _ => GenOutcome.ok "  hi  ".data)).2.2 0 "  hi  ".data
      (by omega) (fun j hj => absurd hj (Nat.not_lt_zero j)) rfl
    rw [h]
    rfl

/-- C9: the guarantee that `generate_entertainment_response` returns a
string holds only for `max_retries ≥ 1`: for `max_retries ≤ 0` the
`for attempt in range(max_retries)` body never runs and the function
returns `None` (and performs no sleeps). -/
theorem C9_nonpositive_max_retries (outcomes : ℕ → GenOutcome) (m : ℤ) :
    (m ≤ 0 → generate_entertainment_response outcomes m = (none, [])) ∧
    (1 ≤ m → ∃ s, (generate_entertainment_response outcomes m).1 = some s) := by
  constructor
  · intro hm
    have h0 : m.toNat = 0 := Int.toNat_of_nonpos hm
    simp [generate_entertainment_response, genFrom, h0, genGo]
  · intro hm
    have h1 : 0 < m.toNat := by omega
    obtain ⟨s, hs, _⟩ := genFrom_total outcomes m.toNat 0 h1
    exact ⟨s, hs⟩

/-- Witness for C9: `max_retries = 0` returns `None`; `max_retries = 3`
returns a string even when every call fails. -/
theorem C9_nonpositive_max_retries_witness :
    (generate_entertainment_response (fun _ => GenOutcome.err) 0 = (none, [])) ∧
    (∃ s, (generate_entertainment_response (fun _ => GenOutcome.err) 3).1 =
      some s) :=
  ⟨(C9_nonpositive_max_retries (fun _ => GenOutcome.err) 0).1 (by norm_num),
   (C9_nonpositive_max_retries (fun _ => GenOutcome.err) 3).2 (by norm_num)⟩

/-- C6 counterexample: with the default 3 attempts, a first-call failure
followed by a second-call success yields the sleep sequence `[5, 10, 5]`:
the 5-second `asyncio.sleep(5)` of line 155 runs again before the second
attempt (it is inside the loop), so the wait between consecutive attempts
is `10 + 5 = 15` seconds, not `10 × attemptNumber = 10`, and the 5-second
wait is not confined to the first attempt. -/
theorem C6_counterexample :
    (generate_entertainment_response
        (fun i => if i = 0 then GenOutcome.err else GenOutcome.ok "ok".data)
        3).2 = [5, 10, 5] ∧
    (5 : ℚ) ∈ (generate_entertainment_response
        (fun i => if i = 0 then GenOutcome.err else GenOutcome.ok "ok".data)
        3).2.tail := by
  constructor
  · norm_num [generate_entertainment_response, genFrom, genGo]
  · norm_num [generate_entertainment_response, genFrom, genGo]

/-- C6 amended: a 5-second wait precedes every attempt, and a failed
non-final attempt `k` (1-based) is additionally followed by a
`10 × k`-second wait; so with the default 3 attempts the sleep sequence is
`[5]` on first-attempt success, `[5, 10, 5]` when exactly the first
attempt fails, and `[5, 10, 5, 20, 5]` when the first two attempts fail
(whatever the third outcome). -/
theorem C6_sleep_schedule (outcomes : ℕ → GenOutcome) :
    (∀ t, outcomes 0 = GenOutcome.ok t →
      (generate_entertainment_response outcomes 3).2 = [5]) ∧
    (∀ t, outcomes 0 = GenOutcome.err → outcomes 1 = GenOutcome.ok t →
      (generate_entertainment_response outcomes 3).2 = [5, 10, 5]) ∧
    (outcomes 0 = GenOutcome.err → outcomes 1 = GenOutcome.err →
      (generate_entertainment_response outcomes 3).2 = [5, 10, 5, 20, 5]) := by
  have ht : (3 : ℤ).toNat = 3 := rfl
  refine ⟨?_, ?_, ?_⟩
  · intro t h0
    norm_num [generate_entertainment_response, genFrom, genGo, h0]
  · intro t h0 h1
    norm_num [generate_entertainment_response, genFrom, genGo, h0, h1]
  · intro h0 h1
    cases h2 : outcomes 2 <;>
      norm_num [generate_entertainment_response, genFrom, genGo, h0, h1, h2, ht]

/-- Witness for C6's amended theorem: concrete outcome sequences realizing
each of the three sleep schedules. -/
theorem C6_sleep_schedule_witness :
    (generate_entertainment_response (fun _ => GenOutcome.ok "ok".data) 3).2 =
      [5] ∧
    (generate_entertainment_response
        (fun i => if i = 0 then GenOutcome.err else GenOutcome.ok "ok".data)
        3).2 = [5, 10, 5] ∧
    (generate_entertainment_response (fun _ => GenOutcome.err) 3).2 =
      [5, 10, 5, 20, 5] :=
  ⟨(C6_sleep_schedule (fun _ => GenOutcome.ok "ok".data)).1 "ok".data rfl,
   (C6_sleep_schedule
      (fun i => if i = 0 then GenOutcome.err else GenOutcome.ok "ok".data)).2.1
      "ok".data rfl rfl,
   (C6_sleep_schedule (fun _ => GenOutcome.err)).2.2 rfl rfl⟩

/-- C2: for every serial sequence of calls to `_handle_rate_limit` — any
initial state, any entry time of the first call, and any nonnegative
caller think-times between a call's return and the next call's entry — at
most 30 (`max_requests_per_minute`) requests proceed within any rolling
60-second window `[T, T + 60)`.  The bound comes from the unconditional
2-second `asyncio.sleep(2)` before each return, which spaces consecutive
proceed times at least 2 seconds apart. -/
theorem C2_rate_limit_window (s : RLState) (t0 : ℚ) (gaps : List ℚ)
    (hgaps : ∀ g ∈ gaps, 0 ≤ g) (T : ℚ) :
    ((rl_run s t0 gaps).2.filter
        (fun p => decide (T ≤ p ∧ p < T + 60))).length ≤
      max_requests_per_minute := by
  have h := rl_run_spaced gaps s t0 hgaps
  have hchain : List.Chain' (fun x y : ℚ => x + 2 ≤ y)
      ((rl_run s t0 gaps).2.filter (fun p => decide (T ≤ p ∧ p < T + 60))) :=
    spaced_sublist (List.filter_sublist _) h.1
  have hbound := spaced_window_le 30
    ((rl_run s t0 gaps).2.filter (fun p => decide (T ≤ p ∧ p < T + 60))) T
    hchain ?_
  · unfold max_requests_per_minute
    exact hbound
  · intro x hx
    have hx2 := (List.mem_filter.mp hx).2
    have hx3 : T ≤ x ∧ x < T + 60 := by simpa using hx2
    refine ⟨hx3.1, ?_⟩
    have : ((30 : ℕ) : ℚ) = 30 := by norm_num
    rw [this]
    linarith [hx3.2]

/-- Witness for C2: a concrete serial run of three back-to-back calls from
the zero state. -/
theorem C2_rate_limit_window_witness :
    (∀ g ∈ [(0 : ℚ), 0, 0], 0 ≤ g) ∧
    ((rl_run (RLState.mk 0 0) 0 [(0 : ℚ), 0, 0]).2.filter
        (fun p => decide ((0 : ℚ) ≤ p ∧ p < 0 + 60))).length ≤
      max_requests_per_minute :=
  ⟨by norm_num,
   C2_rate_limit_window (RLState.mk 0 0) 0 [(0 : ℚ), 0, 0] (by norm_num) 0⟩

theorem run_iteration_post_fail (s : BotState) (inp : IterInput)
    (hf : inp.failAt = some FailPoint.atPost)
    (hp : BotAction.post ∈ (run_iteration s inp).actions) :
    (run_iteration s inp).sleep = 300 := by
  unfold run_iteration iteration_rest at hp ⊢
  split_ifs at hp ⊢ <;> simp_all [hashtags_to_monitor]

/-- C7: every exception raised inside a `run_forever` iteration (by the
post step or the DM step) is caught by the iteration's
`except Exception` handler: the loop always proceeds through all its
iterations (one result per input, never terminated by a failure), an
exception-free iteration ends with the normal 60-second sleep, a raised
exception ends its iteration with the 300-second cooldown sleep — for a
DM-step exception unconditionally, and for a post-step exception whenever
the post step actually ran (when it does not run, no exception is raised
there) — and every iteration sleeps either 60 or 300 seconds. -/
theorem C7_error_isolation (s : BotState) (inps : List IterInput) :
    (run_forever_loop s inps).2.length = inps.length ∧
    (∀ r ∈ (run_forever_loop s inps).2, r.sleep = 300 ∨ r.sleep = 60) ∧
    (∀ r ∈ (run_forever_loop s inps).2,
      r.input.failAt = none → r.sleep = 60) ∧
    (∀ r ∈ (run_forever_loop s inps).2,
      r.input.failAt = some FailPoint.atDM → r.sleep = 300) ∧
    (∀ r ∈ (run_forever_loop s inps).2,
      r.input.failAt = some FailPoint.atPost →
        BotAction.post ∈ r.actions → r.sleep = 300) := by
  refine ⟨run_forever_loop_length s inps, ?_, ?_, ?_, ?_⟩
  · exact run_forever_loop_forall _
      (fun s inp => (run_iteration_sleep s inp).1) inps s
  · refine run_forever_loop_forall _ ?_ inps s
    intro s inp
    rw [run_iteration_input]
    exact (run_iteration_sleep s inp).2.1
  · refine run_forever_loop_forall _ ?_ inps s
    intro s inp
    rw [run_iteration_input]
    exact (run_iteration_sleep s inp).2.2
  · refine run_forever_loop_forall _ ?_ inps s
    intro s inp
    rw [run_iteration_input]
    exact fun hf hp => run_iteration_post_fail s inp hf hp

/-- Witness for C7: a concrete trace whose first iteration raises at the
DM step (300-second cooldown) and a due auto-post iteration raising at the
post step (300-second cooldown as well). -/
theorem C7_error_isolation_witness :
    (run_forever_loop (BotState.mk 0 0 48 1800)
        [IterInput.mk 100 100 (some FailPoint.atDM),
          IterInput.mk 500 500 none]).2.length =
      [IterInput.mk 100 100 (some FailPoint.atDM),
        IterInput.mk 500 500 none].length ∧
    (run_iteration (BotState.mk 0 0 48 1800)
        (IterInput.mk 100 100 (some FailPoint.atDM))).sleep = 300 ∧
    (run_iteration (BotState.mk 0 0 48 1800)
        (IterInput.mk 86340 86370 (some FailPoint.atPost))).sleep = 300 := by
  refine ⟨?_, ?_, ?_⟩
  · exact (C7_error_isolation (BotState.mk 0 0 48 1800)
      [IterInput.mk 100 100 (some FailPoint.atDM),
        IterInput.mk 500 500 none]).1
  · refine (C7_error_isolation (BotState.mk 0 0 48 1800)
      [IterInput.mk 100 100 (some FailPoint.atDM),
        IterInput.mk 500 500 none]).2.2.2.1
      (run_iteration (BotState.mk 0 0 48 1800)
        (IterInput.mk 100 100 (some FailPoint.atDM))) ?_ ?_
    · simp [run_forever_loop]
    · rw [run_iteration_input]
  · refine (C7_error_isolation (BotState.mk 0 0 48 1800)
      [IterInput.mk 86340 86370 (some FailPoint.atPost)]).2.2.2.2
      (run_iteration (BotState.mk 0 0 48 1800)
        (IterInput.mk 86340 86370 (some FailPoint.atPost))) ?_ ?_ ?_
    · simp [run_forever_loop]
    · rw [run_iteration_input]
    · norm_num [run_iteration, iteration_rest]

/-- C4 counterexample: a fully enabled exception-free iteration of
`run_forever` (auto-post due, daily cap not reached) starts the auto-post,
the three hashtag monitors and the DM check — and no auto-like: the
auto-like step exists only in `schedule_auto_posts` (lines 211–213), which
`run_forever` never invokes, so the claimed post → hashtag → DM →
auto-like ordering is unrealizable. -/
theorem C4_counterexample :
    (run_iteration (BotState.mk 0 0 48 1800)
        (IterInput.mk 86340 86370 none)).actions =
      [BotAction.post, BotAction.hashtag "tech", BotAction.hashtag "AI",
        BotAction.hashtag "programming", BotAction.dms] ∧
    BotAction.autoLike ∉ (run_iteration (BotState.mk 0 0 48 1800)
        (IterInput.mk 86340 86370 none)).actions := by
  have h : (run_iteration (BotState.mk 0 0 48 1800)
      (IterInput.mk 86340 86370 none)).actions =
      [BotAction.post, BotAction.hashtag "tech", BotAction.hashtag "AI",
        BotAction.hashtag "programming", BotAction.dms] := by
    norm_num [run_iteration, iteration_rest, is_midnight_minute, hour_of,
      minute_of, seconds_of_day, hashtags_to_monitor]
    simp
  refine ⟨h, ?_⟩
  rw [h]
  decide

/-- C4 amended: within one `run_forever` iteration the started steps are
always, in this order, a subsequence of: auto-post, hashtag monitoring of
"tech", "AI" and "programming", the direct-message check, and the midnight
reset — each step runs to completion before the next starts unless it
raises, which aborts the remainder of the iteration; there is no auto-like
step in `run_forever` (auto-liking exists only in the separate, never
invoked `schedule_auto_posts` loop). -/
theorem C4_iteration_order (s : BotState) (inp : IterInput) :
    List.Sublist (run_iteration s inp).actions iteration_order ∧
    BotAction.autoLike ∉ (run_iteration s inp).actions := by
  unfold run_iteration iteration_rest
  split_ifs <;> constructor <;>
    simp [iteration_order, hashtags_to_monitor]

/-- C10: with the constructor's initialization — `last_post_time` set to
the construction-time clock value `t0` (line 76) and
`auto_post_interval = 1800` (line 75) — no iteration of `run_forever`
whose clock reading is below `t0 + 1800` performs an auto-post, for every
trace of such iterations. -/
theorem C10_no_post_in_initial_window (t0 : ℚ) (inps : List IterInput)
    (hall : ∀ inp ∈ inps, inp.tStart < t0 + 1800) :
    ∀ r ∈ (run_forever_loop (BotState.mk t0 0 48 1800) inps).2,
      BotAction.post ∉ r.actions := by
  suffices main : ∀ (inps : List IterInput) (s : BotState),
      s.last_post_time = t0 → s.auto_post_interval = 1800 →
      (∀ inp ∈ inps, inp.tStart < t0 + 1800) →
      ∀ r ∈ (run_forever_loop s inps).2, BotAction.post ∉ r.actions by
    exact main inps _ rfl rfl hall
  intro inps
  induction inps with
  | nil => intro s _ _ _ r hr; cases hr
  | cons inp rest ih =>
      intro s hlp hint hall2 r hr
      have hc : ¬ inp.tStart - s.last_post_time ≥ s.auto_post_interval := by
        rw [hlp, hint]
        have := hall2 inp (List.mem_cons_self inp rest)
        intro hge
        linarith
      have hnp := run_iteration_no_post s inp hc
      rw [run_forever_loop] at hr
      rcases List.mem_cons.mp hr with rfl | hr
      · exact hnp.1
      · refine ih (run_iteration s inp).state ?_ ?_ ?_ r hr
        · rw [hnp.2, hlp]
        · rw [(run_iteration_preserves s inp).2, hint]
        · exact fun i hi => hall2 i (List.mem_cons_of_mem inp hi)

/-- Witness for C10: a single iteration 1100 s after a construction at
time 1000 (inside the 1800-second window) performs no post. -/
theorem C10_no_post_in_initial_window_witness :
    ((1100 : ℚ) < 1000 + 1800) ∧
    BotAction.post ∉ (run_iteration (BotState.mk 1000 0 48 1800)
      (IterInput.mk 1100 1100 none)).actions := by
  constructor
  · norm_num
  · refine C10_no_post_in_initial_window 1000 [IterInput.mk 1100 1100 none]
      ?_ (run_iteration (BotState.mk 1000 0 48 1800)
        (IterInput.mk 1100 1100 none)) ?_
    · intro inp hinp
      rcases List.mem_singleton.mp hinp with rfl
      norm_num
    · simp [run_forever_loop]

theorem run_iteration_posts (s : BotState) (inp : IterInput)
    (hc : inp.tStart - s.last_post_time ≥ s.auto_post_interval)
    (hq : s.post_count < s.max_daily_posts) (hf : inp.failAt = none)
    (hm : is_midnight_minute inp.tMid = false) :
    run_iteration s inp = IterResult.mk inp
      (BotState.mk inp.tStart (s.post_count + 1) s.max_daily_posts
        s.auto_post_interval)
      (BotAction.post ::
        (hashtags_to_monitor.map BotAction.hashtag ++ [BotAction.dms])) 60 := by
  unfold run_iteration iteration_rest
  rw [if_pos ⟨hc, hq⟩]
  simp [hf, hm]

theorem run_iteration_quota_full (s : BotState) (inp : IterInput)
    (hq : ¬ s.post_count < s.max_daily_posts) (hf : inp.failAt = none)
    (hm : is_midnight_minute inp.tMid = false) :
    run_iteration s inp = IterResult.mk inp s
      (hashtags_to_monitor.map BotAction.hashtag ++ [BotAction.dms]) 60 := by
  unfold run_iteration iteration_rest
  rw [if_neg (fun hc => hq hc.2)]
  simp [hf, hm]

/-- C3 counterexample: a concrete exception-free `run_forever` trace whose
first iteration checks the clock at 23:59:30 of day 0 (`tMid = 86370`) and
whose second checks at 00:05:00 of day 1 (`tMid = 86700`, a plausible next
check after a 300-second error cooldown or a slow iteration): the local
midnight of day 1 passes between the two checks, neither iteration
performs the reset (line 245 fires only when the check lands inside
00:00–00:01), and `post_count` crosses the day boundary unreset — so the
reset does not happen exactly once per local calendar day. -/
theorem C3_counterexample :
    day_of (86370 : ℚ) = 0 ∧ day_of (86700 : ℚ) = 1 ∧
    ((run_forever_loop (BotState.mk 0 5 48 1800)
        [IterInput.mk 86340 86370 none, IterInput.mk 86670 86700 none]).2.map
        IterResult.actions) =
      [[BotAction.post, BotAction.hashtag "tech", BotAction.hashtag "AI",
          BotAction.hashtag "programming", BotAction.dms],
        [BotAction.hashtag "tech", BotAction.hashtag "AI",
          BotAction.hashtag "programming", BotAction.dms]] ∧
    (run_forever_loop (BotState.mk 0 5 48 1800)
        [IterInput.mk 86340 86370 none, IterInput.mk 86670 86700 none]).1.post_count
      = 6 := by
  have hm1 : is_midnight_minute (86370 : ℚ) = false := by
    norm_num [is_midnight_minute, hour_of, minute_of, seconds_of_day]
  have hm2 : is_midnight_minute (86700 : ℚ) = false := by
    norm_num [is_midnight_minute, hour_of, minute_of, seconds_of_day]
  have e1 := run_iteration_posts (BotState.mk 0 5 48 1800)
    (IterInput.mk 86340 86370 none) (by norm_num) (by norm_num) rfl hm1
  have e2 : run_iteration (BotState.mk 86340 6 48 1800)
      (IterInput.mk 86670 86700 none) = IterResult.mk
      (IterInput.mk 86670 86700 none) (BotState.mk 86340 6 48 1800)
      (hashtags_to_monitor.map BotAction.hashtag ++ [BotAction.dms]) 60 := by
    unfold run_iteration iteration_rest
    rw [if_neg]
    · simp [hm2]
    · intro hcc
      have := hcc.1
      norm_num at this
  refine ⟨by norm_num [day_of], by norm_num [day_of], ?_, ?_⟩ <;>
    simp [run_forever_loop, e1, e2, hashtags_to_monitor]

/-- C3 amended: along every `run_forever` trace starting from a state with
`post_count ≤ max_daily_posts`, every reached state satisfies
`0 ≤ post_count ≤ max_daily_posts` (the lower bound is inherent in
`post_count : ℕ`); in an exception-free iteration the midnight reset fires
exactly when the iteration's check lands in the first minute of the local
day (hour 0 and minute 0), the reset only ever fires in such a minute, and
it leaves `post_count = 0`.  It is not guaranteed to fire once per
calendar day: a day in which no check lands inside its first minute gets
no reset. -/
theorem C3_post_count_invariant (s : BotState) (inps : List IterInput)
    (h : s.post_count ≤ s.max_daily_posts) :
    (∀ r ∈ (run_forever_loop s inps).2,
      r.state.post_count ≤ r.state.max_daily_posts) ∧
    (∀ r ∈ (run_forever_loop s inps).2, r.input.failAt = none →
      (BotAction.reset ∈ r.actions ↔
        is_midnight_minute r.input.tMid = true)) ∧
    (∀ r ∈ (run_forever_loop s inps).2, BotAction.reset ∈ r.actions →
      is_midnight_minute r.input.tMid = true ∧ r.state.post_count = 0) := by
  refine ⟨?_, ?_, ?_⟩
  · exact (run_forever_loop_invariant
      (fun st => st.post_count ≤ st.max_daily_posts)
      (fun s inp hs => run_iteration_post_bound s inp hs) inps s h).1
  · refine run_forever_loop_forall _ ?_ inps s
    intro s inp
    rw [run_iteration_input]
    exact (run_iteration_reset s inp).1
  · refine run_forever_loop_forall _ ?_ inps s
    intro s inp
    rw [run_iteration_input]
    intro hmem
    exact ⟨(run_iteration_reset s inp).2.1 hmem,
      (run_iteration_reset s inp).2.2 hmem⟩

/-- Witness for C3's amended theorem: a one-iteration trace whose check
lands at 00:00:20 of day 1 (`tMid = 86420`): the quota bound holds and the
reset fires, zeroing `post_count`. -/
theorem C3_post_count_invariant_witness :
    ((5 : ℕ) ≤ 48) ∧
    (BotAction.reset ∈ (run_iteration (BotState.mk 0 5 48 1800)
      (IterInput.mk 86400 86420 none)).actions) ∧
    (run_iteration (BotState.mk 0 5 48 1800)
      (IterInput.mk 86400 86420 none)).state.post_count = 0 := by
  have hmem : run_iteration (BotState.mk 0 5 48 1800)
      (IterInput.mk 86400 86420 none) ∈
      (run_forever_loop (BotState.mk 0 5 48 1800)
        [IterInput.mk 86400 86420 none]).2 := by
    simp [run_forever_loop]
  have hmid : is_midnight_minute ((86420 : ℚ)) = true := by
    norm_num [is_midnight_minute, hour_of, minute_of, seconds_of_day]
  have h := (C3_post_count_invariant (BotState.mk 0 5 48 1800)
    [IterInput.mk 86400 86420 none] (by norm_num)).2.1
    (run_iteration (BotState.mk 0 5 48 1800) (IterInput.mk 86400 86420 none))
    hmem (by rw [run_iteration_input])
  have hreset : BotAction.reset ∈ (run_iteration (BotState.mk 0 5 48 1800)
      (IterInput.mk 86400 86420 none)).actions := by
    rw [run_iteration_input] at h
    exact h.mpr hmid
  refine ⟨by norm_num, hreset, ?_⟩
  exact ((C3_post_count_invariant (BotState.mk 0 5 48 1800)
    [IterInput.mk 86400 86420 none] (by norm_num)).2.2
    (run_iteration (BotState.mk 0 5 48 1800) (IterInput.mk 86400 86420 none))
    hmem hreset).2

/-- C5: with `max_daily_posts = 2` and `auto_post_interval = 0` (the
interval condition always satisfied, since the clock never runs behind the
recorded `last_post_time`), three consecutive exception-free scheduler
iterations that stay clear of the midnight minute produce exactly 2 posts:
the first two iterations each post and increment `post_count`, the third
skips the posting step, and the final `post_count` is 2. -/
theorem C5_daily_quota_scenario (t0 t1 t2 t3 m1 m2 m3 : ℚ)
    (h01 : t0 ≤ t1) (h12 : t1 ≤ t2) (_h23 : t2 ≤ t3)
    (hm1 : is_midnight_minute m1 = false)
    (hm2 : is_midnight_minute m2 = false)
    (hm3 : is_midnight_minute m3 = false) :
    ((run_forever_loop (BotState.mk t0 0 2 0)
        [IterInput.mk t1 m1 none, IterInput.mk t2 m2 none,
          IterInput.mk t3 m3 none]).2.map
        (fun r => decide (BotAction.post ∈ r.actions))) =
      [true, true, false] ∧
    (run_forever_loop (BotState.mk t0 0 2 0)
        [IterInput.mk t1 m1 none, IterInput.mk t2 m2 none,
          IterInput.mk t3 m3 none]).1.post_count = 2 := by
  have e1 := run_iteration_posts (BotState.mk t0 0 2 0)
    (IterInput.mk t1 m1 none) (show t1 - t0 ≥ 0 by linarith)
    (by norm_num) rfl hm1
  have e2 := run_iteration_posts (BotState.mk t1 1 2 0)
    (IterInput.mk t2 m2 none) (show t2 - t1 ≥ 0 by linarith)
    (by norm_num) rfl hm2
  have e3 := run_iteration_quota_full (BotState.mk t2 2 2 0)
    (IterInput.mk t3 m3 none) (by norm_num) rfl hm3
  constructor <;>
    simp [run_forever_loop, e1, e2, e3, hashtags_to_monitor]

/-- Witness for C5 at concrete clock values (all midnight checks at
00:01:40 of day 0, outside the midnight minute). -/
theorem C5_daily_quota_scenario_witness :
    ((0 : ℚ) ≤ 1 ∧ (1 : ℚ) ≤ 2 ∧ (2 : ℚ) ≤ 3) ∧
    ((run_forever_loop (BotState.mk 0 0 2 0)
        [IterInput.mk 1 100 none, IterInput.mk 2 100 none,
          IterInput.mk 3 100 none]).2.map
        (fun r => decide (BotAction.post ∈ r.actions))) =
      [true, true, false] ∧
    (run_forever_loop (BotState.mk 0 0 2 0)
        [IterInput.mk 1 100 none, IterInput.mk 2 100 none,
          IterInput.mk 3 100 none]).1.post_count = 2 := by
  have hm : is_midnight_minute (100 : ℚ) = false := by
    norm_num [is_midnight_minute, hour_of, minute_of, seconds_of_day]
  have h := C5_daily_quota_scenario 0 1 2 3 100 100 100
    (by norm_num) (by norm_num) (by norm_num) hm hm hm
  exact ⟨⟨by norm_num, by norm_num, by norm_num⟩, h.1, h.2⟩

/-- C8: the DM context store (modelled from the spec, §4.4, since the
bodies of `_load_dm_context`, the store update and
`handle_direct_messages` are not in `src/`): loading a missing
`dm_context.json` yields the empty set rather than an error; `record` is
idempotent — recording an id twice leaves it present exactly once in the
persisted store; and after a restart with an existing store file, no id
already in the store is selected for a reply again. -/
theorem C8_dm_store (store : List ℕ) (msgId : ℕ)
    (persisted incoming : List ℕ) :
    load_dm_context none = [] ∧
    record_dm (record_dm store msgId) msgId = record_dm store msgId ∧
    (msgId ∉ store →
      (record_dm (record_dm store msgId) msgId).count msgId = 1) ∧
    (∀ m ∈ load_dm_context (some persisted),
      m ∉ dms_to_reply (load_dm_context (some persisted)) incoming) := by
  refine ⟨rfl, ?_, ?_, ?_⟩
  · unfold record_dm
    by_cases h : msgId ∈ store
    · simp [h]
    · simp [h]
  · intro h
    unfold record_dm
    simp only [h, if_neg, not_false_iff, List.mem_append,
      List.mem_singleton, or_true, if_pos, true_or]
    rw [List.count_append]
    rw [List.count_eq_zero.mpr h]
    simp
  · intro m hm hmem
    unfold dms_to_reply at hmem
    have := (List.mem_filter.mp hmem).2
    simp only [decide_eq_true_eq] at this
    exact this hm

/-- Witness for C8 at concrete inputs: recording id 7 twice in an empty
store leaves one copy; after loading the store `[1, 2]`, the incoming id 2
is not replied to again. -/
theorem C8_dm_store_witness :
    ((7 : ℕ) ∉ ([] : List ℕ)) ∧
    (record_dm (record_dm [] 7) 7).count 7 = 1 ∧
    (2 : ℕ) ∉ dms_to_reply (load_dm_context (some [1, 2])) [2, 3] := by
  refine ⟨by decide, ?_, ?_⟩
  · exact (C8_dm_store [] 7 [1, 2] [2, 3]).2.2.1 (by decide)
  · exact (C8_dm_store [] 7 [1, 2] [2, 3]).2.2.2 2 (by decide)

/-- Witness for C4's amended theorem at a concrete enabled iteration. -/
theorem C4_iteration_order_witness :
    List.Sublist (run_iteration (BotState.mk 0 0 48 1800)
      (IterInput.mk 86340 86370 none)).actions iteration_order ∧
    BotAction.autoLike ∉ (run_iteration (BotState.mk 0 0 48 1800)
      (IterInput.mk 86340 86370 none)).actions :=
  C4_iteration_order (BotState.mk 0 0 48 1800) (IterInput.mk 86340 86370 none)
